import Mathlib

/-!
Shallow embedding of the agent-orchestration core of the ai-consensus-mcp
repository: the provider subprocess invoker with its retry policy
(`src/providers/subprocess_runner.py`), the SQLite-backed task store and
per-agent inbox (`src/orchestration/task_store.py`, `src/orchestration/inbox.py`,
`src/orchestration/database.py`), and the supervisor implementing the
handoff / assign / message patterns (`src/orchestration/supervisor.py`,
`src/tools/orchestration.py`).

Databases are modelled as Lean lists of rows in insertion order; SQL
statements become list operations.  ISO-8601 UTC timestamps (which SQLite
compares as TEXT, lexicographically, preserving temporal order) are modelled
as naturals.  Values generated from the environment (uuid ids, clock
readings) become explicit inputs of the embedded operations.  Exceptions
become constructors of explicit outcome types.
-/

namespace AIConsensus

/-! ## Core data model (`src/models/orchestration.py`, `src/models/responses.py`) -/

/-- `TaskStatus` enum of `src/models/orchestration.py`. -/
inductive TaskStatus where
  | pending
  | running
  | completed
  | failed
  | timed_out
deriving DecidableEq, Repr

/-- The terminal statuses, as enumerated at `task_store.py` line 58:
`status in (TaskStatus.COMPLETED, TaskStatus.FAILED, TaskStatus.TIMED_OUT)`. -/
def TaskStatus.isTerminal : TaskStatus → Bool
  | .completed => true
  | .failed => true
  | .timed_out => true
  | _ => false

/-- `OrchestrationContext` pydantic model.  `request_id` and `timestamp` are
uuid/clock values generated at construction; they are supplied explicitly
wherever the code constructs a fresh context. -/
structure OrchestrationContext where
  request_id : String
  session_id : Option String := none
  timestamp : String
  source_tool : Option String := none
  current_depth : Nat := 0
deriving DecidableEq, Repr

/-- `AIResponse` model: the uniform provider result `{provider, response, success, error}`. -/
structure AIResponse where
  provider : String
  response : String := ""
  success : Bool
  error : Option String := none
deriving DecidableEq, Repr

/-- `HandoffResult` model (the wall-clock `timestamp` field, a pure
environment reading attached at construction, is omitted). -/
structure HandoffResult where
  agent_name : String
  prompt : String
  response : String := ""
  success : Bool
  error : Option String := none
  duration_ms : Nat := 0
deriving DecidableEq, Repr

/-- `AssignResult` model. -/
structure AssignResult where
  task_id : String
  agent_name : String
  status : TaskStatus
  message : String
deriving DecidableEq, Repr

/-! ## Provider invoker (`src/providers/subprocess_runner.py`)

`_run_once` launches the external process and classifies the outcome.  The
behaviour of the external process on one launch attempt is an input of the
model. -/

/-- Observable behaviour of the external provider process on one launch
attempt: the launch may fail because the executable is missing
(`FileNotFoundError`), the wait may exceed the timeout, or the process exits
with a return code and captured stdout/stderr. -/
inductive ProcBehavior where
  | launchNotFound (excMsg : String)
  | timedOut
  | exits (returncode : Int) (stdout : String) (stderr : String)
deriving DecidableEq, Repr

/-- Outcome of `_run_once`: either it returns an `AIResponse`, or it raises
`SubprocessError` (transient, retried) or `SubprocessFatalError` (never
retried), carrying the exception message. -/
inductive AttemptOutcome where
  | ok (resp : AIResponse)
  | transient (msg : String)
  | fatal (msg : String)
deriving DecidableEq, Repr

/-- Python `str.strip()`: remove leading and trailing whitespace, modelled
over the character list of the string. -/
def pyStrip (s : String) : String :=
  String.mk (((s.data.dropWhile Char.isWhitespace).reverse.dropWhile Char.isWhitespace).reverse)

/-- `_run_once` (`subprocess_runner.py` lines 33-79).  Python `.strip()` is
modelled by `pyStrip`; `if stderr` tests the raw captured stderr for
non-emptiness. -/
def run_once (provider : String) (timeout : Nat) (b : ProcBehavior) : AttemptOutcome :=
  match b with
  | .launchNotFound e =>
      .fatal (provider ++ " command not found: " ++ e)
  | .timedOut =>
      .transient (provider ++ " CLI timed out after " ++ toString timeout ++ "s")
  | .exits rc out err =>
      if rc ≠ 0 then
        let errorMsg := if err ≠ "" then pyStrip err else "exit code " ++ toString rc
        .transient (provider ++ " CLI failed (rc=" ++ toString rc ++ "): " ++ errorMsg)
      else
        let output := pyStrip out
        if output = "" ∧ err ≠ "" then
          .ok { provider := provider, response := "", success := false, error := some (pyStrip err) }
        else
          .ok { provider := provider
                response := if output = "" then "(empty)" else output
                success := true }

/-- Failure `AIResponse` produced by the outer `except` clauses of
`run_cli_subprocess` from a caught exception message. -/
def subprocessFailure (provider : String) (msg : String) : AIResponse :=
  { provider := provider, response := "", success := false, error := some msg }

/-- The tenacity retry loop of `run_cli_subprocess`:
`retry_if_exception_type(SubprocessError)`, `stop_after_attempt(max_retries)`,
`reraise=True`.  `behaviors n` is the process behaviour observed on the n-th
launch attempt (0-based); `fuel` is the number of attempts the stop condition
still allows including the current one, and `done` counts finished attempts.
The pair returned is the final `AIResponse` together with the total number of
attempts executed.  A fatal outcome is not of the retried exception type and
is converted to a failure result at once; a transient outcome is retried
until the stop condition (`attempt_number >= max_retries`, checked after a
failed attempt) holds, then reraised and converted to a failure result. -/
def retryGo (provider : String) (timeout : Nat) (behaviors : Nat → ProcBehavior) :
    Nat → Nat → AIResponse × Nat
  | 0, done =>
      match run_once provider timeout (behaviors done) with
      | .ok r => (r, done + 1)
      | .fatal m => (subprocessFailure provider m, done + 1)
      | .transient m => (subprocessFailure provider m, done + 1)
  | 1, done =>
      match run_once provider timeout (behaviors done) with
      | .ok r => (r, done + 1)
      | .fatal m => (subprocessFailure provider m, done + 1)
      | .transient m => (subprocessFailure provider m, done + 1)
  | fuel + 2, done =>
      match run_once provider timeout (behaviors done) with
      | .ok r => (r, done + 1)
      | .fatal m => (subprocessFailure provider m, done + 1)
      | .transient _ => retryGo provider timeout behaviors (fuel + 1) (done + 1)

/-- `run_cli_subprocess` (`subprocess_runner.py` lines 82-128): run the
command with the retry policy; `maxRetries` is `settings.PROVIDER_MAX_RETRIES`.
Returns the final `AIResponse` and the number of launch attempts executed. -/
def run_cli_subprocess (provider : String) (timeout : Nat) (maxRetries : Nat)
    (behaviors : Nat → ProcBehavior) : AIResponse × Nat :=
  retryGo provider timeout behaviors maxRetries 0

/-! ## Task store (`src/orchestration/task_store.py`, `src/orchestration/database.py`)

The `tasks` table is a list of rows in insertion order.  `task_id` values are
uuid fragments generated at creation and are supplied as explicit inputs;
`created_at` / `completed_at` ISO timestamps are modelled as naturals. -/

/-- One row of the `tasks` table (`AgentTask` model / schema in `database.py`). -/
structure TaskRow where
  task_id : String
  agent_name : String
  prompt : String
  status : TaskStatus
  result : Option String
  error : Option String
  timeout_seconds : Nat
  created_at : Nat
  completed_at : Option Nat
  orch_context : Option String
deriving DecidableEq, Repr

/-- `TaskStore.create_task`: a fresh `AgentTask` (status PENDING, null
result/error/completed_at) is built and INSERTed.  The generated `task_id`,
the clock reading and the serialized context are explicit inputs. -/
def create_task (tbl : List TaskRow) (task_id agent_name prompt : String)
    (timeout : Nat) (created_at : Nat) (orch_context : Option String) : List TaskRow :=
  tbl ++ [{ task_id := task_id
            agent_name := agent_name
            prompt := prompt
            status := .pending
            result := none
            error := none
            timeout_seconds := timeout
            created_at := created_at
            completed_at := none
            orch_context := orch_context }]

/-- `TaskStore.update_status` (`task_store.py` lines 47-67):
`UPDATE tasks SET status = ?, result = ?, error = ?, completed_at = ? WHERE task_id = ?`
where `completed_at` is the current clock reading when the new status is
terminal and NULL otherwise.  The update is unconditional on the previous
contents of the row. -/
def update_status (tbl : List TaskRow) (task_id : String) (status : TaskStatus)
    (result : Option String) (error : Option String) (now : Nat) : List TaskRow :=
  tbl.map fun t =>
    if t.task_id = task_id then
      { t with status := status
               result := result
               error := error
               completed_at := if status.isTerminal then some now else none }
    else t

/-- Startup orphan recovery in `init_db` (`database.py` lines 72-75):
`UPDATE tasks SET status = 'failed', error = 'Server restarted' WHERE status IN ('running', 'pending')`.
Only `status` and `error` are written; `result` and `completed_at` are left
as they are. -/
def init_db_recover (tbl : List TaskRow) : List TaskRow :=
  tbl.map fun t =>
    if t.status = .running ∨ t.status = .pending then
      { t with status := .failed, error := some "Server restarted" }
    else t

/-- States of the `tasks` table reachable through the public store
operations, starting from the empty table: `create_task`, `update_status`
and the startup orphan recovery.  The two side conditions on the `update`
step record how every caller in the repository invokes `update_status`
(`supervisor.py` lines 166-190): a result text is passed only together with
COMPLETED and an error text only together with FAILED or TIMED_OUT — the
store itself enforces neither. -/
inductive TaskReach : List TaskRow → Prop where
  | empty : TaskReach []
  | create (tbl : List TaskRow) (task_id agent_name prompt : String)
      (timeout created_at : Nat) (orch_context : Option String) :
      TaskReach tbl →
      TaskReach (create_task tbl task_id agent_name prompt timeout created_at orch_context)
  | update (tbl : List TaskRow) (task_id : String) (status : TaskStatus)
      (result error : Option String) (now : Nat) :
      TaskReach tbl →
      (result ≠ none → status = .completed) →
      (error ≠ none → status = .failed ∨ status = .timed_out) →
      TaskReach (update_status tbl task_id status result error now)
  | recover (tbl : List TaskRow) :
      TaskReach tbl → TaskReach (init_db_recover tbl)

/-! ## Agent inbox (`src/orchestration/inbox.py`)

The `messages` table is a list of rows in insertion order; `message_id`
values are generated uuid fragments supplied as inputs, `timestamp` TEXT
values are modelled as naturals (SQLite compares ISO-8601 UTC strings
lexicographically, which preserves temporal order). -/

/-- One row of the `messages` table (`Message` model / schema in `database.py`). -/
structure MsgRow where
  message_id : String
  from_agent : String
  to_agent : String
  content : String
  timestamp : Nat
  read : Bool
  metadata : Option String
deriving DecidableEq, Repr

/-- Rows of the table addressed to `agent`:
`SELECT * FROM messages WHERE to_agent = ?` in table order. -/
def msgsFor (tbl : List MsgRow) (agent : String) : List MsgRow :=
  tbl.filter fun m => m.to_agent == agent

/-- The comparison used by `ORDER BY timestamp ASC`. -/
def tsLE (a b : MsgRow) : Prop := a.timestamp ≤ b.timestamp

instance : DecidableRel tsLE := fun a b => Nat.decLe a.timestamp b.timestamp

/-- `AgentInbox._enforce_limit` (`inbox.py` lines 138-157): count the rows
addressed to `agent`; if the count exceeds the cap, DELETE the rows whose
`message_id` is among the `excess` oldest (by `ORDER BY timestamp ASC LIMIT excess`)
of that agent's rows. -/
def enforce_limit (cap : Nat) (tbl : List MsgRow) (agent : String) : List MsgRow :=
  let count := (msgsFor tbl agent).length
  if count > cap then
    let excess := count - cap
    let victims := ((List.insertionSort tsLE (msgsFor tbl agent)).take excess).map MsgRow.message_id
    tbl.filter fun m => !(victims.contains m.message_id)
  else tbl

/-- `AgentInbox.send_message` (`inbox.py` lines 21-53): INSERT the freshly
built `Message` (its `read` column is bound to 0), then enforce the
per-recipient cap for the recipient.  The generated `message_id` and
timestamp arrive inside `msg`. -/
def send_message (cap : Nat) (tbl : List MsgRow) (msg : MsgRow) : List MsgRow :=
  enforce_limit cap (tbl ++ [{ msg with read := false }]) msg.to_agent

/-- `AgentInbox.mark_as_read` (`inbox.py` lines 73-93).  The Python guard
`if message_ids:` takes the first branch only for a non-None, non-empty
list; `None` and `[]` both fall to the mark-all-unread branch.  The second
component is the cursor rowcount: the number of rows matched by the UPDATE. -/
def mark_as_read (tbl : List MsgRow) (agent : String)
    (message_ids : Option (List String)) : List MsgRow × Nat :=
  match message_ids with
  | some (i :: is) =>
      let sel := i :: is
      ( tbl.map fun m =>
          if m.to_agent = agent ∧ m.message_id ∈ sel then { m with read := true } else m
      , (tbl.filter fun m => decide (m.to_agent = agent ∧ m.message_id ∈ sel)).length )
  | _ =>
      ( tbl.map fun m =>
          if m.to_agent = agent ∧ m.read = false then { m with read := true } else m
      , (tbl.filter fun m => decide (m.to_agent = agent ∧ m.read = false)).length )

/-- Sending a list of messages one after another through
`AgentInbox.send_message`. -/
def send_all (cap : Nat) (tbl : List MsgRow) (msgs : List MsgRow) : List MsgRow :=
  msgs.foldl (send_message cap) tbl

/-! ## Supervisor (`src/orchestration/supervisor.py`, `src/tools/orchestration.py`) -/

/-- Python `x or default` on an optional integer: both `None` and `0` are
falsy and fall back to the default (`timeout = timeout or settings.TASK_TIMEOUT_SECONDS`). -/
def pyOrNat (x : Option Nat) (default : Nat) : Nat :=
  match x with
  | none => default
  | some 0 => default
  | some n => n

/-- Python `s or default` on an optional string: `None` and `""` are falsy
(`result.error or "Agent returned failure"`). -/
def pyOrStr (x : Option String) (default : String) : String :=
  match x with
  | none => default
  | some "" => default
  | some s => s

/-- An ASCII single-quote character as a string, used by the f-string error
messages. -/
def sq : String := (Char.ofNat 39).toString

/-- `_mask_error` (`supervisor.py` lines 25-29): replace the error text with
a generic message when `settings.MASK_ERROR_DETAILS` is set. -/
def mask_error (maskErrorDetails : Bool) (error : String) : String :=
  if maskErrorDetails then "An internal error occurred" else error

/-- Outcome of `await asyncio.wait_for(agent.execute(prompt, orch_ctx), timeout)`
inside `Supervisor.handoff`: the agent coroutine returns an `AIResponse`,
the wait times out, or the coroutine raises; `elapsedMs` is the wall-clock
duration measured around the call. -/
inductive ExecOutcome where
  | returns (resp : AIResponse) (elapsedMs : Nat)
  | timesOut (elapsedMs : Nat)
  | raises (excMsg : String) (elapsedMs : Nat)
deriving DecidableEq, Repr

/-- An agent as the supervisor sees it: `execute` maps a prompt and the
orchestration context to an outcome.  The registry
(`AgentRegistry.get`, `src/agents/registry.py`) is a lookup from name to
agent, `none` for unregistered names. -/
def AgentExec : Type := String → OrchestrationContext → ExecOutcome

/-- Result of one `Supervisor.handoff` call together with its execution side
effect: `execCalls` lists the orchestration contexts with which
`agent.execute` was invoked during the call (empty when no agent ran). -/
structure HandoffOutput where
  result : HandoffResult
  execCalls : List OrchestrationContext
deriving Repr

/-- `Supervisor.handoff` (`supervisor.py` lines 37-109).  When no context is
supplied, a fresh one is built with `source_tool="agent_handoff"` and the
default depth 0; its generated `request_id` and timestamp are the explicit
inputs `freshRid`/`freshTs`.  The depth guard compares
`orch_ctx.current_depth > MAX_HANDOFF_DEPTH` before resolving the agent. -/
def supervisor_handoff (maxDepth : Nat) (taskTimeoutDefault : Nat) (maskErrors : Bool)
    (registry : String → Option AgentExec) (freshRid freshTs : String)
    (agent_name prompt : String) (timeout : Option Nat)
    (orch_ctx : Option OrchestrationContext) : HandoffOutput :=
  let ctx := match orch_ctx with
    | some c => c
    | none => { request_id := freshRid
                timestamp := freshTs
                source_tool := some "agent_handoff"
                current_depth := 0 }
  if ctx.current_depth > maxDepth then
    { result := { agent_name := agent_name
                  prompt := prompt
                  success := false
                  error := some ("Max handoff depth (" ++ toString maxDepth ++ ") exceeded") }
      execCalls := [] }
  else
    let t := pyOrNat timeout taskTimeoutDefault
    match registry agent_name with
    | none =>
        { result := { agent_name := agent_name
                      prompt := prompt
                      success := false
                      error := some ("Agent " ++ sq ++ agent_name ++ sq ++ " not found") }
          execCalls := [] }
    | some exec =>
        match exec prompt ctx with
        | .returns r elapsed =>
            if r.success then
              { result := { agent_name := agent_name
                            prompt := prompt
                            response := r.response
                            success := true
                            duration_ms := elapsed }
                execCalls := [ctx] }
            else
              { result := { agent_name := agent_name
                            prompt := prompt
                            success := false
                            error := some (pyOrStr r.error "Agent returned failure")
                            duration_ms := elapsed }
                execCalls := [ctx] }
        | .timesOut elapsed =>
            { result := { agent_name := agent_name
                          prompt := prompt
                          success := false
                          error := some ("Handoff timed out after " ++ toString t ++ "s")
                          duration_ms := elapsed }
              execCalls := [ctx] }
        | .raises m elapsed =>
            { result := { agent_name := agent_name
                          prompt := prompt
                          success := false
                          error := some (mask_error maskErrors m)
                          duration_ms := elapsed }
              execCalls := [ctx] }

/-- Stand-in for `orch_ctx.model_dump_json()`: an opaque serialization of
the context stored in the `orch_context` column; its exact format is
irrelevant to every property proved here. -/
def ctx_dump_json (c : OrchestrationContext) : String :=
  c.request_id ++ "|" ++ c.timestamp ++ "|" ++ toString c.current_depth

/-- Synchronous part of `Supervisor.assign` (`supervisor.py` lines 113-153):
resolve the agent — an unknown name yields an immediate FAILED `AssignResult`
with empty `task_id` and no row created — otherwise create a PENDING task
row and return its id; the detached `_safe_run_task` execution is spawned
afterwards and is not part of this synchronous step (its later
`update_status` calls are the `update` steps of `TaskReach`). -/
def supervisor_assign (taskTimeoutDefault : Nat)
    (registry : String → Option AgentExec) (freshTaskId : String) (now : Nat)
    (tasks : List TaskRow) (agent_name prompt : String) (timeout : Option Nat)
    (orch_ctx : Option OrchestrationContext) (freshRid freshTs : String) :
    AssignResult × List TaskRow :=
  let t := pyOrNat timeout taskTimeoutDefault
  match registry agent_name with
  | none =>
      ( { task_id := ""
          agent_name := agent_name
          status := .failed
          message := "Agent " ++ sq ++ agent_name ++ sq ++ " not found" }
      , tasks )
  | some _ =>
      let ctx := match orch_ctx with
        | some c => c
        | none => { request_id := freshRid
                    timestamp := freshTs
                    source_tool := some "agent_assign"
                    current_depth := 0 }
      ( { task_id := freshTaskId
          agent_name := agent_name
          status := .pending
          message := "Task " ++ freshTaskId ++ " assigned to " ++ agent_name }
      , create_task tasks freshTaskId agent_name prompt t now (some (ctx_dump_json ctx)) )

/-- `Supervisor.send_message` (`supervisor.py` lines 195-213): resolve the
agent — an unknown name yields the textual failure string, the message table
untouched — otherwise delegate to `AgentInbox.send_message` and return the
created message.  The fresh uuid and clock reading for the new message are
explicit inputs. -/
def supervisor_send_message (cap : Nat) (registry : String → Option AgentExec)
    (msgs : List MsgRow) (agent_name content from_agent : String)
    (metadata : Option String) (freshMid : String) (now : Nat) :
    Except String MsgRow × List MsgRow :=
  match registry agent_name with
  | none => (.error ("Agent " ++ sq ++ agent_name ++ sq ++ " not found"), msgs)
  | some _ =>
      let m : MsgRow := { message_id := freshMid
                          from_agent := from_agent
                          to_agent := agent_name
                          content := content
                          timestamp := now
                          read := false
                          metadata := metadata }
      (.ok m, send_message cap msgs m)

/-- Context construction in the `agent_handoff` tool
(`src/tools/orchestration.py` lines 62-67): a fresh context is built whose
`current_depth` is the caller-supplied `current_depth` argument verbatim,
with a freshly generated `request_id` and timestamp. -/
def agent_handoff_ctx (freshRid freshTs : String) (current_depth : Nat) :
    OrchestrationContext :=
  { request_id := freshRid
    timestamp := freshTs
    source_tool := some "agent_handoff"
    current_depth := current_depth }

/-! ## Theorems: provider invoker retry policy -/

/-- Unrolling of the retry loop towards a successful attempt: if the first
`k` attempts (from `done`) are transient and attempt `done + k` returns
a response, and the stop condition allows at least `k + 1` further attempts,
the loop returns that response after exactly `k + 1` further attempts. -/
lemma retryGo_ok (provider : String) (timeout : Nat) (behaviors : Nat → ProcBehavior)
    (msgs : Nat → String) (r : AIResponse) :
    ∀ (k fuel done : Nat),
      (∀ i < k, run_once provider timeout (behaviors (done + i)) = .transient (msgs (done + i))) →
      run_once provider timeout (behaviors (done + k)) = .ok r →
      k + 1 ≤ fuel →
      retryGo provider timeout behaviors fuel done = (r, done + k + 1) := by
  intro k
  induction k with
  | zero =>
      intro fuel done _ hok hfuel
      simp only [Nat.add_zero] at hok
      match fuel, hfuel with
      | 1, _ => simp [retryGo, hok]
      | f + 2, _ => simp [retryGo, hok]
  | succ k ih =>
      intro fuel done htrans hok hfuel
      have h0 : run_once provider timeout (behaviors done) = .transient (msgs done) := by
        simpa using htrans 0 (Nat.succ_pos k)
      match fuel, hfuel with
      | f + 2, _ =>
        have step : retryGo provider timeout behaviors (f + 2) done =
            retryGo provider timeout behaviors (f + 1) (done + 1) := by
          simp [retryGo, h0]
        rw [step]
        have htrans' : ∀ i < k,
            run_once provider timeout (behaviors (done + 1 + i)) = .transient (msgs (done + 1 + i)) := by
          intro i hi
          have e : done + 1 + i = done + (i + 1) := by omega
          rw [e]
          exact htrans (i + 1) (by omega)
        have hok' : run_once provider timeout (behaviors (done + 1 + k)) = .ok r := by
          have e : done + 1 + k = done + (k + 1) := by omega
          rw [e]; exact hok
        have := ih (f + 1) (done + 1) htrans' hok' (by omega)
        rw [this]
        have e : done + 1 + k + 1 = done + (k + 1) + 1 := by omega
        rw [e]

/-- Unrolling of the retry loop to exhaustion: if every allowed attempt is
transient, the loop makes exactly `f + 1` further attempts and converts the
last transient message into the failure result. -/
lemma retryGo_exhaust (provider : String) (timeout : Nat) (behaviors : Nat → ProcBehavior)
    (msgs : Nat → String) :
    ∀ (f done : Nat),
      (∀ i < f + 1, run_once provider timeout (behaviors (done + i)) = .transient (msgs (done + i))) →
      retryGo provider timeout behaviors (f + 1) done =
        (subprocessFailure provider (msgs (done + f)), done + f + 1) := by
  intro f
  induction f with
  | zero =>
      intro done h
      have h0 : run_once provider timeout (behaviors done) = .transient (msgs done) := by
        simpa using h 0 (by omega)
      simp [retryGo, h0]
  | succ f ih =>
      intro done h
      have h0 : run_once provider timeout (behaviors done) = .transient (msgs done) := by
        simpa using h 0 (by omega)
      have step : retryGo provider timeout behaviors (f + 1 + 1) done =
          retryGo provider timeout behaviors (f + 1) (done + 1) := by
        simp [retryGo, h0]
      rw [step]
      have h' : ∀ i < f + 1,
          run_once provider timeout (behaviors (done + 1 + i)) = .transient (msgs (done + 1 + i)) := by
        intro i hi
        have e : done + 1 + i = done + (i + 1) := by omega
        rw [e]
        exact h (i + 1) (by omega)
      rw [ih (done + 1) h']
      have e1 : done + 1 + f = done + (f + 1) := by omega
      rw [e1]

/-- C4: For every provider invocation where the underlying command fails
transiently exactly k times before succeeding: if k is less than the
configured maximum attempt count, the final result is success and the
command was executed exactly k+1 times; if k is at least the maximum, the
final result is a failure carrying the last transient error and the command
was executed exactly maximum-attempt times. -/
theorem run_cli_retry_policy (provider : String) (timeout maxRetries k : Nat)
    (behaviors : Nat → ProcBehavior) (msgs : Nat → String) (r : AIResponse)
    (hmax : 1 ≤ maxRetries)
    (htrans : ∀ i < k, run_once provider timeout (behaviors i) = .transient (msgs i))
    (hok : run_once provider timeout (behaviors k) = .ok r)
    (_hsucc : r.success = true) :
    (k < maxRetries →
      run_cli_subprocess provider timeout maxRetries behaviors = (r, k + 1))
    ∧ (maxRetries ≤ k →
      run_cli_subprocess provider timeout maxRetries behaviors =
        (subprocessFailure provider (msgs (maxRetries - 1)), maxRetries)) := by
  constructor
  · intro hlt
    have := retryGo_ok provider timeout behaviors msgs r k maxRetries 0
      (by simpa using htrans) (by simpa using hok) (by omega)
    simpa [run_cli_subprocess] using this
  · intro hge
    obtain ⟨f, rfl⟩ : ∃ f, maxRetries = f + 1 :=
      ⟨maxRetries - 1, (Nat.succ_pred_eq_of_pos hmax).symm⟩
    have := retryGo_exhaust provider timeout behaviors msgs f 0
      (fun i hi => by simpa using htrans i (by omega))
    simpa [run_cli_subprocess] using this

/-- Witness for `run_cli_retry_policy`: the command fails transiently twice
(timeouts) and succeeds on the third attempt with max 3 attempts. -/
theorem run_cli_retry_policy_witness :
    run_cli_subprocess "codex" 60 3 (fun i => if i < 2 then .timedOut else .exits 0 "ok" "") =
      ({ provider := "codex", response := "ok", success := true, error := none }, 2 + 1) :=
  (run_cli_retry_policy "codex" 60 3 2
      (fun i => if i < 2 then .timedOut else .exits 0 "ok" "")
      (fun _ => "codex CLI timed out after 60s")
      { provider := "codex", response := "ok", success := true, error := none }
      (by decide) (by decide) (by decide) rfl).1 (by decide)

/-- C5: For every provider invocation whose launch fails because the
executable cannot be found (`FileNotFoundError` → `SubprocessFatalError`),
the launch is attempted exactly once regardless of the configured retry
count, and the invoker returns a failure result carrying a descriptive
message instead of propagating the exception. -/
theorem run_cli_fatal_invoked_once (provider : String) (timeout maxRetries : Nat)
    (behaviors : Nat → ProcBehavior) (e : String)
    (h : behaviors 0 = .launchNotFound e) :
    run_cli_subprocess provider timeout maxRetries behaviors =
      (subprocessFailure provider (provider ++ " command not found: " ++ e), 1) := by
  rcases maxRetries with _ | _ | f <;>
    simp [run_cli_subprocess, retryGo, run_once, h]

/-- Witness for `run_cli_fatal_invoked_once` with retry count 5. -/
theorem run_cli_fatal_invoked_once_witness :
    run_cli_subprocess "gemini" 60 5 (fun _ => .launchNotFound "No such file") =
      (subprocessFailure "gemini" ("gemini" ++ " command not found: " ++ "No such file"), 1) :=
  run_cli_fatal_invoked_once "gemini" 60 5 (fun _ => .launchNotFound "No such file")
    "No such file" rfl

/-- C6: For every provider process that exits with code zero: if its
stripped standard output is empty while its diagnostic output is non-empty,
the invoker returns a non-retryable failure result carrying the stripped
diagnostic text after exactly one attempt; otherwise it returns a success
result after exactly one attempt whose text is the stripped output, or the
literal placeholder `"(empty)"` when the output is empty. -/
theorem run_cli_zero_exit_classification (provider : String) (timeout maxRetries : Nat)
    (behaviors : Nat → ProcBehavior) (out err : String)
    (hb : behaviors 0 = .exits 0 out err) :
    (pyStrip out = "" ∧ err ≠ "" →
      run_cli_subprocess provider timeout maxRetries behaviors =
        ({ provider := provider, response := "", success := false, error := some (pyStrip err) }, 1))
    ∧ (¬(pyStrip out = "" ∧ err ≠ "") →
      run_cli_subprocess provider timeout maxRetries behaviors =
        ({ provider := provider
           response := if pyStrip out = "" then "(empty)" else pyStrip out
           success := true, error := none }, 1)) := by
  constructor <;> intro h <;> rcases maxRetries with _ | _ | f <;>
    simp [run_cli_subprocess, retryGo, run_once, hb, h]

/-- Witness for `run_cli_zero_exit_classification`: zero exit, empty stdout,
non-empty stderr yields a non-retried failure carrying the stderr text. -/
theorem run_cli_zero_exit_classification_witness :
    run_cli_subprocess "copilot" 60 3 (fun _ => .exits 0 "" "auth required") =
      ({ provider := "copilot", response := "", success := false
         error := some (pyStrip "auth required") }, 1) :=
  (run_cli_zero_exit_classification "copilot" 60 3 (fun _ => .exits 0 "" "auth required")
    "" "auth required" rfl).1 (by decide)

/-! ## Theorems: inbox mark-as-read -/

/-- C10: calling mark-as-read with an explicitly empty id list behaves
identically to omitting the id argument — Python `if message_ids:` treats
`[]` as falsy — so it marks every unread message of the agent as read and
returns the number of previously unread messages of that agent. -/
theorem mark_as_read_empty_ids (tbl : List MsgRow) (agent : String) :
    mark_as_read tbl agent (some []) = mark_as_read tbl agent none
    ∧ (∀ m ∈ (mark_as_read tbl agent (some [])).1, m.to_agent = agent → m.read = true)
    ∧ (mark_as_read tbl agent (some [])).2 =
        ((msgsFor tbl agent).filter fun m => !m.read).length := by
  refine ⟨rfl, ?_, ?_⟩
  · intro m hm hag
    have hm' : m ∈ tbl.map (fun t =>
        if t.to_agent = agent ∧ t.read = false then { t with read := true } else t) := hm
    obtain ⟨t, _, rfl⟩ := List.mem_map.mp hm'
    rcases Decidable.em (t.to_agent = agent ∧ t.read = false) with hc | hc
    · simp [hc]
    · simp only [if_neg hc] at hag ⊢
      cases hr : t.read
      · exact absurd ⟨hag, hr⟩ hc
      · rfl
  · show (tbl.filter fun m => decide (m.to_agent = agent ∧ m.read = false)).length = _
    rw [msgsFor, List.filter_filter]
    congr 1
    apply List.filter_congr
    intro m _
    cases hr : m.read <;> by_cases ha : m.to_agent = agent <;> simp [ha, hr]

/-- Witness for `mark_as_read_empty_ids`: a one-message inbox; after the
empty-list call the message addressed to the agent is read. -/
theorem mark_as_read_empty_ids_witness :
    (⟨"m1", "s", "worker-a", "hi", 1, true, none⟩ : MsgRow).read = true :=
  (mark_as_read_empty_ids [⟨"m1", "s", "worker-a", "hi", 1, false, none⟩] "worker-a").2.1
    ⟨"m1", "s", "worker-a", "hi", 1, true, none⟩ (by decide) (by decide)

/-! ## Theorems: supervisor handoff / assign / message -/

/-- C9: For every handoff call whose context depth exceeds the configured
maximum, the result is a failure whose error message names the configured
maximum, and the agent is never executed (`execCalls = []`). -/
theorem handoff_depth_guard (maxDepth taskTimeoutDefault : Nat) (maskErrors : Bool)
    (registry : String → Option AgentExec) (freshRid freshTs agent_name prompt : String)
    (timeout : Option Nat) (ctx : OrchestrationContext)
    (hdepth : ctx.current_depth > maxDepth) :
    supervisor_handoff maxDepth taskTimeoutDefault maskErrors registry freshRid freshTs
        agent_name prompt timeout (some ctx) =
      { result := { agent_name := agent_name
                    prompt := prompt
                    success := false
                    error := some ("Max handoff depth (" ++ toString maxDepth ++ ") exceeded") }
        execCalls := [] } := by
  simp [supervisor_handoff, hdepth]

/-- Witness for `handoff_depth_guard`: configured maximum 10, context depth 11. -/
theorem handoff_depth_guard_witness :
    supervisor_handoff 10 120 false (fun _ => none) "rid" "ts"
        "gemini-worker" "ping" none (some ⟨"req0", none, "t0", some "agent_handoff", 11⟩) =
      { result := { agent_name := "gemini-worker"
                    prompt := "ping"
                    success := false
                    error := some ("Max handoff depth (" ++ toString 10 ++ ") exceeded") }
        execCalls := [] } :=
  handoff_depth_guard 10 120 false (fun _ => none) "rid" "ts" "gemini-worker" "ping"
    none ⟨"req0", none, "t0", some "agent_handoff", 11⟩ (by decide)

/-- C8: For every agent name not registered in the registry (and a context
within the depth limit, so that handoff reaches the resolution step),
handoff returns a not-found failure without executing anyone, assign
returns a FAILED result with empty task id and leaves the task table
untouched, and send_message returns a textual failure and leaves the
message table untouched. -/
theorem unknown_agent_no_side_effect
    (maxDepth taskTimeoutDefault : Nat) (maskErrors : Bool)
    (registry : String → Option AgentExec) (agent_name : String)
    (hreg : registry agent_name = none)
    (freshRid freshTs prompt : String) (timeout : Option Nat)
    (ctx : OrchestrationContext) (hdepth : ctx.current_depth ≤ maxDepth)
    (freshTaskId : String) (now : Nat) (tasks : List TaskRow)
    (cap : Nat) (msgs : List MsgRow) (content from_agent : String)
    (metadata : Option String) (freshMid : String) (now2 : Nat) :
    (supervisor_handoff maxDepth taskTimeoutDefault maskErrors registry freshRid freshTs
        agent_name prompt timeout (some ctx) =
      { result := { agent_name := agent_name
                    prompt := prompt
                    success := false
                    error := some ("Agent " ++ sq ++ agent_name ++ sq ++ " not found") }
        execCalls := [] })
    ∧ (supervisor_assign taskTimeoutDefault registry freshTaskId now tasks
        agent_name prompt timeout (some ctx) freshRid freshTs =
      ( { task_id := ""
          agent_name := agent_name
          status := .failed
          message := "Agent " ++ sq ++ agent_name ++ sq ++ " not found" }
      , tasks ))
    ∧ (supervisor_send_message cap registry msgs agent_name content from_agent
        metadata freshMid now2 =
      (.error ("Agent " ++ sq ++ agent_name ++ sq ++ " not found"), msgs)) := by
  have hnd : ¬ ctx.current_depth > maxDepth := Nat.not_lt.mpr hdepth
  refine ⟨?_, ?_, ?_⟩
  · simp [supervisor_handoff, hnd, hreg]
  · simp [supervisor_assign, hreg]
  · simp [supervisor_send_message, hreg]

/-- Witness for `unknown_agent_no_side_effect`: empty registry, agent
`"ghost"`, empty tables. -/
theorem unknown_agent_no_side_effect_witness :
    (supervisor_handoff 10 120 false (fun _ => none) "rid" "ts"
        "ghost" "ping" none (some ⟨"req0", none, "t0", some "agent_handoff", 0⟩) =
      { result := { agent_name := "ghost"
                    prompt := "ping"
                    success := false
                    error := some ("Agent " ++ sq ++ "ghost" ++ sq ++ " not found") }
        execCalls := [] })
    ∧ (supervisor_assign 120 (fun _ => none) "tid1" 0 []
        "ghost" "ping" none (some ⟨"req0", none, "t0", some "agent_handoff", 0⟩) "rid" "ts" =
      ( { task_id := ""
          agent_name := "ghost"
          status := .failed
          message := "Agent " ++ sq ++ "ghost" ++ sq ++ " not found" }
      , [] ))
    ∧ (supervisor_send_message 100 (fun _ => none) [] "ghost" "hello" "supervisor"
        none "mid1" 5 =
      (.error ("Agent " ++ sq ++ "ghost" ++ sq ++ " not found"), [])) :=
  unknown_agent_no_side_effect 10 120 false (fun _ => none) "ghost" rfl
    "rid" "ts" "ping" none ⟨"req0", none, "t0", some "agent_handoff", 0⟩ (by decide)
    "tid1" 0 [] 100 [] "hello" "supervisor" none "mid1" 5

/-- The claim that each handoff hop hands the delegated agent a context
whose depth is the caller's depth plus one, all other fields unchanged. -/
def C1DepthIncrementClaim : Prop :=
  ∀ (maxDepth taskTimeoutDefault : Nat) (maskErrors : Bool)
    (registry : String → Option AgentExec) (freshRid freshTs agent_name prompt : String)
    (timeout : Option Nat) (ctx : OrchestrationContext),
    ∀ c ∈ (supervisor_handoff maxDepth taskTimeoutDefault maskErrors registry freshRid freshTs
            agent_name prompt timeout (some ctx)).execCalls,
      c.current_depth = ctx.current_depth + 1
      ∧ c.request_id = ctx.request_id ∧ c.session_id = ctx.session_id
      ∧ c.timestamp = ctx.timestamp ∧ c.source_tool = ctx.source_tool

/-- A registry holding a single always-succeeding gemini worker, used for
concrete handoff executions. -/
def demoRegistry : String → Option AgentExec := fun n =>
  if n = "gemini-worker" then
    some (fun _ _ => .returns { provider := "gemini", response := "ok", success := true } 5)
  else none

/-- C1 fails on the code: a handoff at depth 0 executes the agent with the
very same context, depth 0 — nowhere does the code add one.  The depth
increment along chained handoffs is left to the external caller of the
`agent_handoff` tool. -/
theorem c1_depth_increment_counterexample : ¬ C1DepthIncrementClaim := by
  intro h
  have hm : (⟨"req0", none, "t0", some "agent_handoff", 0⟩ : OrchestrationContext) ∈
      (supervisor_handoff 10 120 false demoRegistry "rid" "ts"
        "gemini-worker" "ping" none
        (some ⟨"req0", none, "t0", some "agent_handoff", 0⟩)).execCalls := by
    simp [supervisor_handoff, demoRegistry]
  have := (h 10 120 false demoRegistry "rid" "ts" "gemini-worker" "ping" none
    ⟨"req0", none, "t0", some "agent_handoff", 0⟩ _ hm).1
  simp at this

/-- C1 amended: the supervisor passes the caller's context to the delegated
agent completely unchanged (in particular `current_depth` is not
incremented), and the `agent_handoff` tool builds a fresh context whose
depth is the caller-supplied depth argument verbatim; tracking the increment
across hops is the external caller's job. -/
theorem handoff_ctx_passthrough :
    (∀ (maxDepth taskTimeoutDefault : Nat) (maskErrors : Bool)
       (registry : String → Option AgentExec) (freshRid freshTs agent_name prompt : String)
       (timeout : Option Nat) (ctx c : OrchestrationContext),
       c ∈ (supervisor_handoff maxDepth taskTimeoutDefault maskErrors registry freshRid freshTs
              agent_name prompt timeout (some ctx)).execCalls →
       c = ctx)
    ∧ (∀ (freshRid freshTs : String) (d : Nat),
        (agent_handoff_ctx freshRid freshTs d).current_depth = d) := by
  constructor
  · intro maxDepth taskTimeoutDefault maskErrors registry freshRid freshTs agent_name
      prompt timeout ctx c hc
    by_cases hd : ctx.current_depth > maxDepth
    · simp [supervisor_handoff, hd] at hc
    · rcases hreg : registry agent_name with _ | exec
      · simp [supervisor_handoff, hd, hreg] at hc
      · rcases hex : exec prompt ctx with ⟨r, el⟩ | el | ⟨m, el⟩
        · rcases hs : r.success
          · simp [supervisor_handoff, hd, hreg, hex, hs] at hc
            exact hc
          · simp [supervisor_handoff, hd, hreg, hex, hs] at hc
            exact hc
        · simp [supervisor_handoff, hd, hreg, hex] at hc
          exact hc
        · simp [supervisor_handoff, hd, hreg, hex] at hc
          exact hc
  · intro freshRid freshTs d
    rfl

/-- Witness for `handoff_ctx_passthrough`: the context executed by a
concrete successful handoff is exactly the caller's context. -/
theorem handoff_ctx_passthrough_witness :
    (⟨"req0", none, "t0", some "agent_handoff", 3⟩ : OrchestrationContext) =
      ⟨"req0", none, "t0", some "agent_handoff", 3⟩ :=
  handoff_ctx_passthrough.1 10 120 false demoRegistry "rid" "ts" "gemini-worker" "ping"
    none ⟨"req0", none, "t0", some "agent_handoff", 3⟩
    ⟨"req0", none, "t0", some "agent_handoff", 3⟩
    (by simp [supervisor_handoff, demoRegistry])

/-! ## Theorems: task store lifecycle -/

/-- The claim that `completed_at` is non-null exactly on terminal rows and
that `result`/`error` are mutually exclusive in a terminal row, over every
state reachable through the public store operations. -/
def C2CompletedIffTerminalClaim : Prop :=
  ∀ (tbl : List TaskRow), TaskReach tbl → ∀ t ∈ tbl,
    (t.completed_at ≠ none ↔ t.status.isTerminal = true)
    ∧ ¬(t.status.isTerminal = true ∧ t.result ≠ none ∧ t.error ≠ none)

/-- C2 fails on the code: startup orphan recovery rewrites a PENDING row to
FAILED setting only `status` and `error`, never `completed_at`, so the
recovered row is terminal with `completed_at` still NULL. -/
theorem c2_completed_iff_terminal_counterexample : ¬ C2CompletedIffTerminalClaim := by
  intro h
  have hreach : TaskReach (init_db_recover (create_task [] "t1" "worker-a" "ping" 5 0 none)) :=
    .recover _ (.create _ "t1" "worker-a" "ping" 5 0 none .empty)
  have hrow : (⟨"t1", "worker-a", "ping", .failed, none, some "Server restarted",
      5, 0, none, none⟩ : TaskRow) ∈
      init_db_recover (create_task [] "t1" "worker-a" "ping" 5 0 none) := by decide
  have hiff := (h _ hreach _ hrow).1
  exact hiff.mpr (by decide) rfl

/-- The amended per-row invariant that actually holds on every reachable
state: `completed_at` is only ever non-null on a terminal row, a
non-terminal row has null `result`, `error` and `completed_at`, `result`
and `error` are never both non-null, and the only terminal rows with null
`completed_at` are the recovery-written FAILED rows carrying the fixed
error `"Server restarted"` and a null result. -/
def TaskInv (t : TaskRow) : Prop :=
  (t.status.isTerminal = false → t.result = none ∧ t.error = none ∧ t.completed_at = none)
  ∧ (t.completed_at ≠ none → t.status.isTerminal = true)
  ∧ ¬(t.result ≠ none ∧ t.error ≠ none)
  ∧ (t.status.isTerminal = true → t.completed_at = none →
      t.status = .failed ∧ t.error = some "Server restarted" ∧ t.result = none)

/-- C2 amended: every row of every reachable task-table state satisfies
`TaskInv` — the biconditional of the original claim weakens to one
direction plus the characterization of the recovery-written rows, and
mutual exclusivity of `result`/`error` holds under the call discipline
recorded in `TaskReach.update`. -/
theorem task_store_invariant (tbl : List TaskRow) (hreach : TaskReach tbl) :
    ∀ t ∈ tbl, TaskInv t := by
  induction hreach with
  | empty => intro t ht; simp at ht
  | create tbl0 id ag pr tmo ca ctx _ ih =>
      intro t ht
      rw [create_task] at ht
      rcases List.mem_append.mp ht with h | h
      · exact ih t h
      · simp only [List.mem_singleton] at h
        subst h
        refine ⟨fun _ => ⟨rfl, rfl, rfl⟩, fun hne => absurd rfl hne, ?_, ?_⟩
        · rintro ⟨hr, _⟩; exact hr rfl
        · intro hterm; simp [TaskStatus.isTerminal] at hterm
  | update tbl0 tid st r e now _hr hd1 hd2 ih =>
      intro t ht
      rw [update_status] at ht
      obtain ⟨t0, ht0, rfl⟩ := List.mem_map.mp ht
      by_cases hc : t0.task_id = tid
      · simp only [if_pos hc]
        by_cases hterm : st.isTerminal = true
        · refine ⟨?_, fun _ => hterm, ?_, ?_⟩
          · intro hf; rw [hterm] at hf; exact absurd hf (by simp)
          · rintro ⟨hrn, hen⟩
            have h1 := hd1 hrn
            rcases hd2 hen with h2 | h2 <;> rw [h1] at h2 <;> exact TaskStatus.noConfusion h2
          · intro _ hcomp
            rw [if_pos hterm] at hcomp
            exact absurd hcomp (by simp)
        · have hterm' : st.isTerminal = false := by
            cases hst : st.isTerminal
            · rfl
            · exact absurd hst hterm
          refine ⟨?_, ?_, ?_, ?_⟩
          · intro _
            refine ⟨?_, ?_, ?_⟩
            · by_cases hrn : r = none
              · exact hrn
              · have := hd1 hrn; rw [this] at hterm'
                exact absurd hterm' (by simp [TaskStatus.isTerminal])
            · by_cases hen : e = none
              · exact hen
              · rcases hd2 hen with h2 | h2 <;> rw [h2] at hterm' <;>
                  exact absurd hterm' (by simp [TaskStatus.isTerminal])
            · simp [hterm']
          · intro hne
            rw [if_neg (by simp [hterm'])] at hne
            exact absurd rfl hne
          · rintro ⟨hrn, hen⟩
            have h1 := hd1 hrn
            rcases hd2 hen with h2 | h2 <;> rw [h1] at h2 <;> exact TaskStatus.noConfusion h2
          · intro habs; rw [habs] at hterm'; exact Bool.noConfusion hterm'
      · simp only [if_neg hc]
        exact ih t0 ht0
  | recover tbl0 _hr ih =>
      intro t ht
      rw [init_db_recover] at ht
      obtain ⟨t0, ht0, rfl⟩ := List.mem_map.mp ht
      have inv0 := ih t0 ht0
      by_cases hc : t0.status = .running ∨ t0.status = .pending
      · simp only [if_pos hc]
        have hnt : t0.status.isTerminal = false := by
          rcases hc with h | h <;> rw [h] <;> rfl
        obtain ⟨hres, _, hcomp⟩ := inv0.1 hnt
        refine ⟨?_, ?_, ?_, ?_⟩
        · intro hf; exact absurd hf (by simp [TaskStatus.isTerminal])
        · intro hne
          exact absurd hcomp (by simpa using hne)
        · rintro ⟨hrn, _⟩
          exact hrn hres
        · intro _ _; exact ⟨rfl, rfl, hres⟩
      · simp only [if_neg hc]
        exact inv0

/-- Witness for `task_store_invariant`: the row of a created task updated
to COMPLETED with a result satisfies the invariant. -/
theorem task_store_invariant_witness :
    TaskInv ⟨"t1", "worker-a", "ping", .completed, some "pong", none, 5, 0, some 1, none⟩ :=
  task_store_invariant
    (update_status (create_task [] "t1" "worker-a" "ping" 5 0 none)
      "t1" .completed (some "pong") none 1)
    (TaskReach.update _ "t1" .completed (some "pong") none 1
      (TaskReach.create _ "t1" "worker-a" "ping" 5 0 none TaskReach.empty)
      (fun _ => rfl) (fun he => absurd rfl he))
    _ (by decide)

/-- The claim that no `update_status` call can move a row out of a terminal
status, over every reachable state. -/
def C3TerminalFrozenClaim : Prop :=
  ∀ (tbl : List TaskRow), TaskReach tbl →
    ∀ t ∈ tbl, t.status.isTerminal = true →
      ∀ (st : TaskStatus) (r e : Option String) (now : Nat),
        ∀ u ∈ update_status tbl t.task_id st r e now,
          u.task_id = t.task_id → u.status = t.status

/-- C3 fails on the code: `update_status` carries no guard on the current
status — updating a COMPLETED task to RUNNING succeeds and the row leaves
its terminal state. -/
theorem c3_terminal_frozen_counterexample : ¬ C3TerminalFrozenClaim := by
  intro h
  have hreach : TaskReach (update_status (create_task [] "t1" "worker-a" "ping" 5 0 none)
      "t1" .completed (some "pong") none 1) :=
    .update _ "t1" .completed (some "pong") none 1
      (.create _ "t1" "worker-a" "ping" 5 0 none .empty)
      (fun _ => rfl) (fun he => absurd rfl he)
  have hc := h _ hreach
    ⟨"t1", "worker-a", "ping", .completed, some "pong", none, 5, 0, some 1, none⟩
    (by decide) (by decide) .running none none 2
    ⟨"t1", "worker-a", "ping", .running, none, none, 5, 0, none, none⟩
    (by decide) rfl
  exact absurd hc (by decide)

/-- C3 amended: `update_status` overwrites the status unconditionally — the
row with the targeted id always ends up with exactly the requested status
(and the requested result/error and the recomputed `completed_at`),
regardless of whether its previous status was terminal; the
PENDING → RUNNING → terminal discipline lives in the supervisor's calling
pattern, not in the store. -/
theorem update_status_unconditional (tbl : List TaskRow) (task_id : String)
    (st : TaskStatus) (r e : Option String) (now : Nat) :
    (∀ u ∈ update_status tbl task_id st r e now, u.task_id = task_id → u.status = st)
    ∧ (∀ t ∈ tbl, t.task_id = task_id →
        ({ t with status := st, result := r, error := e
                  completed_at := if st.isTerminal then some now else none } : TaskRow) ∈
          update_status tbl task_id st r e now) := by
  constructor
  · intro u hu hid
    obtain ⟨t, _, rfl⟩ := List.mem_map.mp hu
    by_cases hc : t.task_id = task_id
    · simp [hc]
    · rw [if_neg hc] at hid ⊢
      exact absurd hid hc
  · intro t ht hid
    exact List.mem_map.mpr ⟨t, ht, by rw [if_pos hid]⟩

/-- Witness for `update_status_unconditional`: a COMPLETED row is moved to
RUNNING by a subsequent `update_status` call. -/
theorem update_status_unconditional_witness :
    (⟨"t1", "worker-a", "ping", .running, none, none, 5, 0, none, none⟩ : TaskRow).status =
      .running :=
  (update_status_unconditional
    [⟨"t1", "worker-a", "ping", .completed, some "pong", none, 5, 0, some 1, none⟩]
    "t1" .running none none 2).1
    ⟨"t1", "worker-a", "ping", .running, none, none, 5, 0, none, none⟩
    (by decide) rfl

/-! ## Theorems: inbox cap -/

/-- Filtering by recipient distributes over table append. -/
lemma msgsFor_append (l₁ l₂ : List MsgRow) (a : String) :
    msgsFor (l₁ ++ l₂) a = msgsFor l₁ a ++ msgsFor l₂ a :=
  List.filter_append l₁ l₂

/-- A table whose rows are all addressed to `a` filters to itself. -/
lemma msgsFor_all {l : List MsgRow} {a : String} (h : ∀ m ∈ l, m.to_agent = a) :
    msgsFor l a = l :=
  List.filter_eq_self.mpr fun m hm => by simp [h m hm]

/-- A singleton row addressed to `a` survives filtering by `a`. -/
lemma msgsFor_single_eq {m : MsgRow} {a : String} (h : m.to_agent = a) :
    msgsFor [m] a = [m] := by
  simp [msgsFor, h]

/-- A singleton row not addressed to `b` filters away. -/
lemma msgsFor_single_ne {m : MsgRow} {b : String} (h : m.to_agent ≠ b) :
    msgsFor [m] b = [] := by
  simp [msgsFor, h]

/-- Recipient filtering commutes with any row filter. -/
lemma msgsFor_filter (l : List MsgRow) (p : MsgRow → Bool) (b : String) :
    msgsFor (l.filter p) b = (msgsFor l b).filter p := by
  simp [msgsFor, List.filter_filter, Bool.and_comm]

/-- Rebinding `read := false` on a row whose `read` field is already false
is the identity. -/
lemma read_false_eta {m : MsgRow} (h : m.read = false) :
    ({ m with read := false } : MsgRow) = m := by
  cases m
  simp_all

/-- A send that stays within the cap merely appends the inserted row. -/
lemma send_message_no_evict (cap : Nat) (tbl : List MsgRow) (m : MsgRow)
    (h : (msgsFor (tbl ++ [{ m with read := false }]) m.to_agent).length ≤ cap) :
    send_message cap tbl m = tbl ++ [{ m with read := false }] := by
  simp only [send_message, enforce_limit]
  rw [if_neg (Nat.not_lt.mpr h)]

/-- Sends that keep the recipient's count within the cap append the
messages in order without evicting anything. -/
lemma send_all_no_evict (cap : Nat) (a : String) :
    ∀ (msgs tbl : List MsgRow),
      (∀ m ∈ msgs, m.to_agent = a) → (∀ m ∈ msgs, m.read = false) →
      (msgsFor tbl a).length + msgs.length ≤ cap →
      send_all cap tbl msgs = tbl ++ msgs := by
  intro msgs
  induction msgs with
  | nil => intro tbl _ _ _; simp [send_all]
  | cons m ms ih =>
      intro tbl hto hread hlen
      have hta : m.to_agent = a := hto m (by simp)
      have heta : ({ m with read := false } : MsgRow) = m :=
        read_false_eta (hread m (by simp))
      have hlen' : (msgsFor tbl a).length + ms.length + 1 ≤ cap := by
        simp only [List.length_cons] at hlen
        omega
      have hcnt : (msgsFor (tbl ++ [{ m with read := false }]) m.to_agent).length ≤ cap := by
        rw [heta, hta, msgsFor_append, msgsFor_single_eq hta]
        simp only [List.length_append, List.length_cons, List.length_nil]
        omega
      have hstep : send_message cap tbl m = tbl ++ [m] := by
        rw [send_message_no_evict cap tbl m hcnt, heta]
      have hfold : send_all cap tbl (m :: ms) = send_all cap (tbl ++ [m]) ms := by
        simp only [send_all, List.foldl_cons]
        rw [hstep]
      rw [hfold, ih (tbl ++ [m])
        (fun x hx => hto x (by simp [hx]))
        (fun x hx => hread x (by simp [hx]))
        (by rw [msgsFor_append, msgsFor_single_eq hta]
            simp only [List.length_append, List.length_cons, List.length_nil]
            omega)]
      simp

/-- A send addressed to one recipient never deletes rows of another
recipient: eviction victims all carry the sender's recipient, and
primary-key uniqueness makes the id-based DELETE touch only those rows. -/
lemma send_message_other_agent (cap : Nat) (s : List MsgRow) (m : MsgRow) (b : String)
    (hnd : ((s ++ [m]).map MsgRow.message_id).Nodup) (hb : b ≠ m.to_agent) :
    msgsFor (send_message cap s m) b = msgsFor s b := by
  have hids : ((s ++ [{ m with read := false }]).map MsgRow.message_id).Nodup := by
    simpa using hnd
  have hone : msgsFor [{ m with read := false }] b = [] :=
    msgsFor_single_ne (show m.to_agent ≠ b from Ne.symm hb)
  simp only [send_message, enforce_limit]
  by_cases hcnt :
      (msgsFor (s ++ [{ m with read := false }]) m.to_agent).length > cap
  · rw [if_pos hcnt, msgsFor_filter]
    have hall : ∀ x ∈ msgsFor (s ++ [{ m with read := false }]) b,
        (!((((List.insertionSort tsLE
              (msgsFor (s ++ [{ m with read := false }]) m.to_agent)).take
              ((msgsFor (s ++ [{ m with read := false }]) m.to_agent).length - cap)).map
              MsgRow.message_id).contains x.message_id)) = true := by
      intro x hx
      have hxmem : x ∈ s ++ [{ m with read := false }] := List.mem_of_mem_filter hx
      have hxb : x.to_agent = b := by simpa using List.of_mem_filter hx
      simp only [List.contains, Bool.not_eq_true', List.elem_eq_mem, decide_eq_false_iff_not]
      intro hmem
      obtain ⟨q, hq_take, hq_id⟩ := List.mem_map.mp hmem
      have hq_mem : q ∈ msgsFor (s ++ [{ m with read := false }]) m.to_agent :=
        (List.perm_insertionSort tsLE _).subset (List.mem_of_mem_take hq_take)
      have hq_to : q.to_agent = m.to_agent := by simpa using List.of_mem_filter hq_mem
      have hq_in : q ∈ s ++ [{ m with read := false }] := List.mem_of_mem_filter hq_mem
      have hxq : q = x := List.inj_on_of_nodup_map hids hq_in hxmem hq_id
      rw [hxq, hxb] at hq_to
      exact hb hq_to
    rw [List.filter_eq_self.mpr hall, msgsFor_append, hone]
    simp
  · rw [if_neg hcnt, msgsFor_append, hone]
    simp

/-- C7: with cap N, sending N+1 fresh messages to one recipient (strictly
increasing timestamps, fresh unique ids, recipient previously empty) leaves
exactly the N most recently sent rows for that recipient — the oldest is
evicted — and a send addressed to one recipient never deletes a row of any
other recipient. -/
theorem inbox_cap_invariant (cap : Nat) (tbl : List MsgRow) (a : String) (msgs : List MsgRow)
    (hlen : msgs.length = cap + 1)
    (hto : ∀ m ∈ msgs, m.to_agent = a)
    (hread : ∀ m ∈ msgs, m.read = false)
    (hempty : msgsFor tbl a = [])
    (hids : ((tbl ++ msgs).map MsgRow.message_id).Nodup)
    (hts : msgs.Pairwise fun x y => x.timestamp < y.timestamp) :
    msgsFor (send_all cap tbl msgs) a = msgs.tail
    ∧ ∀ (s : List MsgRow) (m : MsgRow) (b : String),
        ((s ++ [m]).map MsgRow.message_id).Nodup → b ≠ m.to_agent →
        msgsFor (send_message cap s m) b = msgsFor s b := by
  refine ⟨?_, fun s m b hnd hb => send_message_other_agent cap s m b hnd hb⟩
  have hne : msgs ≠ [] := by intro h; rw [h] at hlen; simp at hlen
  have hdec : msgs.dropLast ++ [msgs.getLast hne] = msgs := List.dropLast_append_getLast hne
  have hfrontlen : msgs.dropLast.length = cap := by
    rw [List.length_dropLast, hlen]; omega
  have hfront_sub : ∀ x ∈ msgs.dropLast, x ∈ msgs :=
    fun x hx => (List.dropLast_sublist msgs).subset hx
  have hlst_mem : msgs.getLast hne ∈ msgs := List.getLast_mem hne
  have heta : ({ msgs.getLast hne with read := false } : MsgRow) = msgs.getLast hne :=
    read_false_eta (hread _ hlst_mem)
  have hstep2 : send_all cap tbl msgs.dropLast = tbl ++ msgs.dropLast :=
    send_all_no_evict cap a msgs.dropLast tbl
      (fun x hx => hto x (hfront_sub x hx))
      (fun x hx => hread x (hfront_sub x hx))
      (by rw [hempty]; simp [hfrontlen])
  have hstep1 : send_all cap tbl msgs =
      send_message cap (tbl ++ msgs.dropLast) (msgs.getLast hne) := by
    conv_lhs => rw [← hdec]
    simp only [send_all, List.foldl_append, List.foldl_cons, List.foldl_nil]
    rw [show List.foldl (send_message cap) tbl msgs.dropLast = tbl ++ msgs.dropLast
      from hstep2]
  rw [hstep1]
  simp only [send_message]
  rw [heta, hto _ hlst_mem]
  have happ : (tbl ++ msgs.dropLast) ++ [msgs.getLast hne] = tbl ++ msgs := by
    rw [List.append_assoc, hdec]
  rw [happ]
  have hfa : msgsFor (tbl ++ msgs) a = msgs := by
    rw [msgsFor_append, hempty, msgsFor_all hto]; rfl
  simp only [enforce_limit]
  rw [hfa, hlen, if_pos (by omega : cap + 1 > cap)]
  have hexc : cap + 1 - cap = 1 := by omega
  rw [hexc]
  have hsort : List.insertionSort tsLE msgs = msgs :=
    List.Sorted.insertionSort_eq (hts.imp fun h => Nat.le_of_lt h)
  rw [hsort]
  obtain ⟨m0, rest, hm0⟩ : ∃ m0 rest, msgs = m0 :: rest := by
    cases msgs with
    | nil => exact absurd rfl hne
    | cons x xs => exact ⟨x, xs, rfl⟩
  rw [hm0]
  simp only [List.take_succ_cons, List.take_zero, List.map_cons, List.map_nil,
    List.tail_cons]
  have hids' := hids
  rw [hm0, List.map_append, List.nodup_append] at hids'
  obtain ⟨_, hnd_cons, hdisj⟩ := hids'
  rw [List.map_cons, List.nodup_cons] at hnd_cons
  obtain ⟨hm0_notin, _⟩ := hnd_cons
  have hfilter : (tbl ++ m0 :: rest).filter
      (fun m => !([m0.message_id].contains m.message_id)) = tbl ++ rest := by
    rw [List.filter_append]
    congr 1
    · apply List.filter_eq_self.mpr
      intro x hx
      simp only [List.contains, Bool.not_eq_true', List.elem_eq_mem,
        decide_eq_false_iff_not, List.mem_singleton]
      intro he
      exact hdisj (List.mem_map_of_mem _ hx)
        (by rw [List.map_cons]; rw [he]; exact List.mem_cons_self _ _)
    · rw [List.filter_cons]
      have hp0 : (!([m0.message_id].contains m0.message_id)) = false := by simp
      rw [hp0]
      simp only [Bool.false_eq_true, if_false]
      apply List.filter_eq_self.mpr
      intro x hx
      simp only [List.contains, Bool.not_eq_true', List.elem_eq_mem,
        decide_eq_false_iff_not, List.mem_singleton]
      intro he
      exact hm0_notin (by rw [← he]; exact List.mem_map_of_mem _ hx)
  rw [hfilter, msgsFor_append, hempty, msgsFor_all
    (fun x hx => hto x (by rw [hm0]; exact List.mem_cons_of_mem _ hx))]
  rfl

/-- Witness for `inbox_cap_invariant`: cap 3, four messages M1..M4 sent in
order to worker-a; exactly M2, M3, M4 remain. -/
theorem inbox_cap_invariant_witness :
    msgsFor (send_all 3 []
      [ ⟨"m1", "s", "worker-a", "c1", 1, false, none⟩
      , ⟨"m2", "s", "worker-a", "c2", 2, false, none⟩
      , ⟨"m3", "s", "worker-a", "c3", 3, false, none⟩
      , ⟨"m4", "s", "worker-a", "c4", 4, false, none⟩ ]) "worker-a" =
      [ ⟨"m2", "s", "worker-a", "c2", 2, false, none⟩
      , ⟨"m3", "s", "worker-a", "c3", 3, false, none⟩
      , ⟨"m4", "s", "worker-a", "c4", 4, false, none⟩ ] :=
  (inbox_cap_invariant 3 [] "worker-a"
    [ ⟨"m1", "s", "worker-a", "c1", 1, false, none⟩
    , ⟨"m2", "s", "worker-a", "c2", 2, false, none⟩
    , ⟨"m3", "s", "worker-a", "c3", 3, false, none⟩
    , ⟨"m4", "s", "worker-a", "c4", 4, false, none⟩ ]
    (by decide) (by decide) (by decide) rfl (by decide) (by decide)).1

end AIConsensus
